import Mathlib

/-! Shallow embedding of the Expense Tracker API (`src/main.py`, FastAPI +
SQLAlchemy).

The relational store (users / categories / transactions tables) is modelled as
lists of records in insertion order; autoincrement primary keys are modelled as
`max existing id + 1`.  Dates are modelled as `Nat` (an ordinal day number:
`dt.date` is totally ordered and only compared).  Python `float` amounts are
modelled as `Rat` (only sign and equality matter to the endpoints).  An
`HTTPException(status_code, detail)` raised by handler code is modelled by
`AppError.http status detail`; a pydantic request-body validation failure
(which FastAPI turns into a 422 before the handler runs) by
`AppError.validation`.  Each mutating endpoint returns the resulting store
together with `Except AppError result`, threading the session state explicitly.
-/

instance {ε α : Type} [DecidableEq ε] [DecidableEq α] : DecidableEq (Except ε α) := fun x y =>
  match x, y with
  | .ok a, .ok b =>
    if h : a = b then .isTrue (by rw [h]) else .isFalse (by simp [h])
  | .error a, .error b =>
    if h : a = b then .isTrue (by rw [h]) else .isFalse (by simp [h])
  | .ok _, .error _ => .isFalse (by simp)
  | .error _, .ok _ => .isFalse (by simp)

/-- Error outcomes visible to a caller.  `http s d` is a handler-raised
`HTTPException` with status `s` and detail `d`; `validation` is a pydantic
request-model rejection (HTTP 422), whose body is framework-generated. -/
inductive AppError where
  | http (status : Nat) (detail : String)
  | validation
  deriving Repr, DecidableEq

/-- HTTP status of an error (pydantic validation failures surface as 422). -/
def AppError.statusOf : AppError → Nat
  | .http s _ => s
  | .validation => 422

/-- Row of the `users` table (`class User`).  `created_at` is never read by
any endpoint and is omitted; password hashing is an external collaborator, so
the stored hash is an uninterpreted string. -/
structure User where
  id : Nat
  email : String
  password_hash : String
  deriving Repr, DecidableEq

/-- Row of the `categories` table (`class Category`). -/
structure Category where
  id : Nat
  name : String
  owner_id : Nat
  deriving Repr, DecidableEq

/-- Row of the `transactions` table (`class Transaction`). -/
structure Transaction where
  id : Nat
  date : Nat
  description : String
  amount : Rat
  type : String
  category_id : Option Nat
  owner_id : Nat
  deriving Repr, DecidableEq

/-- The relational store: the three tables, rows in insertion order. -/
structure Store where
  users : List User
  categories : List Category
  transactions : List Transaction
  deriving Repr, DecidableEq

/-- Request body of `POST/PUT /transactions` (`class TxIn`), before pydantic
validation. -/
structure TxIn where
  date : Nat
  description : String
  amount : Rat
  type : String
  category_id : Option Nat
  deriving Repr, DecidableEq

/-- Response body of the transaction endpoints (`class TxOut`). -/
structure TxOut where
  id : Nat
  date : Nat
  description : String
  amount : Rat
  type : String
  category_id : Option Nat
  category_name : Option String
  deriving Repr, DecidableEq

/-- Outcome of `jwt.decode` + `int(payload.get("sub"))` on a presented bearer
token: `invalid` covers decode failure, signature mismatch, expiry and a
malformed/missing `sub` claim (everything the `try` block catches);
`subject uid` is a well-formed, verified, unexpired token for subject `uid`. -/
inductive TokenResult where
  | invalid
  | subject (uid : Nat)
  deriving Repr, DecidableEq

/-- Largest element of a list of `Nat` (0 if empty); models the maximum
assigned autoincrement key. -/
def maxNat (l : List Nat) : Nat := l.foldr max 0

/-- Next autoincrement id for `users`. -/
def nextUserId (s : Store) : Nat := maxNat (s.users.map (·.id)) + 1

/-- Next autoincrement id for `categories`. -/
def nextCategoryId (s : Store) : Nat := maxNat (s.categories.map (·.id)) + 1

/-- Next autoincrement id for `transactions`. -/
def nextTxId (s : Store) : Nat := maxNat (s.transactions.map (·.id)) + 1

/-- Primary-key lookup `db.get(Category, i)`. -/
def findCategory (s : Store) (i : Nat) : Option Category :=
  s.categories.find? (fun c => c.id == i)

/-- Primary-key lookup `db.get(User, i)`. -/
def findUser (s : Store) (i : Nat) : Option User :=
  s.users.find? (fun u => u.id == i)

/-- Primary-key lookup `db.get(Transaction, i)`. -/
def findTx (s : Store) (i : Nat) : Option Transaction :=
  s.transactions.find? (fun t => t.id == i)

/-- Python truthiness of an `Optional[int]`: `None` and `0` are falsy. -/
def natTruthy : Option Nat → Bool
  | none => false
  | some n => n != 0

/-- Python truthiness of an `Optional[str]`: `None` and `""` are falsy. -/
def strTruthy : Option String → Bool
  | none => false
  | some s => s != ""

/-- Guard `type in ("expense", "income")`: the kind filter is applied only for
these two exact values. -/
def typeFilterActive : Option String → Bool
  | none => false
  | some t => t == "expense" || t == "income"

/-- Test whether `pat` is an initial segment of `hay` (character lists). -/
def charsLeading : List Char → List Char → Bool
  | [], _ => true
  | _ :: _, [] => false
  | p :: ps, h :: hs => p == h && charsLeading ps hs

/-- Test whether `pat` occurs contiguously somewhere in `hay` (character lists). -/
def charsHasSub (pat : List Char) : List Char → Bool
  | [] => charsLeading pat []
  | h :: hs => charsLeading pat (h :: hs) || charsHasSub pat hs

/-- Case-insensitive substring match, modelling the ilike pattern that wraps
the query text in percent wildcards (metacharacter-free patterns). -/
def containsCI (hay pat : String) : Bool :=
  charsHasSub pat.toLower.data hay.toLower.data

/-- Pydantic validation of `TxIn`: `amount = Field(gt=0)` and
`type = Field(pattern="^(expense|income)$")`. -/
def txInValid (p : TxIn) : Bool :=
  decide (0 < p.amount) && (p.type == "expense" || p.type == "income")

/-- Pydantic validation of `CategoryIn`: `name = Field(min_length=1,
max_length=100)`. -/
def categoryNameValid (name : String) : Bool :=
  decide (1 ≤ name.length) && decide (name.length ≤ 100)

/-- The ORM relationship read `t.category.name if t.category else None`:
resolve the category reference against the store (`None` when the reference
is null or dangles). -/
def resolveCategoryName (s : Store) (t : Transaction) : Option String :=
  match t.category_id with
  | none => none
  | some cid => (findCategory s cid).map (·.name)

/-- Build the `TxOut` response for a stored transaction, enriched with the
resolved category name. -/
def enrich (s : Store) (t : Transaction) : TxOut :=
  ⟨t.id, t.date, t.description, t.amount, t.type, t.category_id,
    resolveCategoryName s t⟩

/-- The category cross-reference check shared verbatim by
`create_transaction` and `update_transaction`:
`if payload.category_id: cat = db.get(Category, payload.category_id);
if not cat or cat.owner_id != current_user.id: raise 404`.
Note the Python truthiness guard: a `category_id` of `None` or `0` skips the
check entirely. -/
def categoryCheck (s : Store) (uid : Nat) (oc : Option Nat) : Except AppError Unit :=
  if natTruthy oc then
    match findCategory s (oc.getD 0) with
    | none => .error (.http 404 "Category not found")
    | some c =>
      if c.owner_id == uid then .ok () else .error (.http 404 "Category not found")
  else .ok ()

/-- Endpoint `POST /auth/register` (`register`): reject a duplicate email with 400,
otherwise insert the user and seed the three default categories. -/
def registerUser (s : Store) (email password_hash : String) :
    Store × Except AppError User :=
  if s.users.any (fun u => u.email == email) then
    (s, .error (.http 400 "Email already registered"))
  else
    let uid := nextUserId s
    let u : User := ⟨uid, email, password_hash⟩
    let cid := nextCategoryId s
    let s' : Store :=
      { s with
        users := s.users ++ [u]
        categories := s.categories ++
          [⟨cid, "General", uid⟩, ⟨cid + 1, "Food", uid⟩, ⟨cid + 2, "Transport", uid⟩] }
    (s', .ok u)

/-- Dependency `get_user_from_token`: the Authorization Core.  The external `jwt.decode`
outcome is the `TokenResult` input; an undecodable/unverifiable/expired token
and a verified token whose subject no longer exists both raise 401, with
details `"Invalid token"` and `"User not found"` respectively. -/
def getUserFromToken (s : Store) (d : TokenResult) : Except AppError User :=
  match d with
  | .invalid => .error (.http 401 "Invalid token")
  | .subject uid =>
    match findUser s uid with
    | none => .error (.http 401 "User not found")
    | some u => .ok u

/-- Endpoint PUT on a category id (`update_category`): pydantic validates
the payload first; then `if not c or c.owner_id != current_user.id: raise
404`; otherwise rename in place. -/
def updateCategory (s : Store) (uid cid : Nat) (name : String) :
    Store × Except AppError Category :=
  if ¬ categoryNameValid name then (s, .error .validation)
  else
    match findCategory s cid with
    | none => (s, .error (.http 404 "Category not found"))
    | some c =>
      if c.owner_id == uid then
        let c' : Category := { c with name := name }
        ({ s with categories := s.categories.map (fun x => if x.id == cid then c' else x) },
          .ok c')
      else (s, .error (.http 404 "Category not found"))

/-- Endpoint DELETE on a category id (`delete_category`): same ownership
check as update; on success the ORM delete detaches child transactions
(their `category_id` foreign key is set to null) and removes the row. -/
def deleteCategory (s : Store) (uid cid : Nat) : Store × Except AppError Unit :=
  match findCategory s cid with
  | none => (s, .error (.http 404 "Category not found"))
  | some c =>
    if c.owner_id == uid then
      ({ s with
          categories := s.categories.filter (fun x => x.id != cid)
          transactions := s.transactions.map (fun t =>
            if t.category_id == some cid then { t with category_id := none } else t) },
        .ok ())
    else (s, .error (.http 404 "Category not found"))

/-- Ordering used by `order_by(Transaction.date.desc())`: `a` precedes `b`
when `a`'s date is the later (or equal) one. -/
def txGE (a b : Transaction) : Prop := b.date ≤ a.date

instance : DecidableRel txGE := fun a b => Nat.decLe b.date a.date

instance : IsTotal Transaction txGE :=
  ⟨fun a b => (Nat.le_total b.date a.date).imp id id⟩

instance : IsTrans Transaction txGE :=
  ⟨fun _ _ _ hab hbc => Nat.le_trans hbc hab⟩

/-- The WHERE clause assembled by `list_transactions` for one row: owner
scoping plus each optional filter, with the Python truthiness guards
(`if q:`, `if type in ("expense","income"):`, `if category_id:`) and the
always-truthy date guards. -/
def txKeep (uid : Nat) (q ty : Option String) (cid : Option Nat)
    (start stop : Option Nat) (t : Transaction) : Bool :=
  t.owner_id == uid
  && (if strTruthy q then containsCI t.description (q.getD "") else true)
  && (if typeFilterActive ty then t.type == ty.getD "" else true)
  && (if natTruthy cid then t.category_id == some (cid.getD 0) else true)
  && (match start with | some a => decide (a ≤ t.date) | none => true)
  && (match stop with | some b => decide (t.date ≤ b) | none => true)

/-- Endpoint `GET /transactions` (`list_transactions`): filter the caller's rows, sort
by date descending, apply `OFFSET offset LIMIT limit`, and enrich each row
with the resolved category name. -/
def listTransactions (s : Store) (uid : Nat) (q ty : Option String)
    (cid : Option Nat) (start stop : Option Nat) (limit offset : Nat) : List TxOut :=
  ((((s.transactions.filter (txKeep uid q ty cid start stop)).insertionSort
      txGE).drop offset).take limit).map (enrich s)

/-- Endpoint `POST /transactions` (`create_transaction`): pydantic validation, then the
shared category cross-reference check, then insert and return the enriched
row. -/
def createTransaction (s : Store) (uid : Nat) (p : TxIn) :
    Store × Except AppError TxOut :=
  if ¬ txInValid p then (s, .error .validation)
  else
    match categoryCheck s uid p.category_id with
    | .error e => (s, .error e)
    | .ok _ =>
      let tx : Transaction :=
        ⟨nextTxId s, p.date, p.description, p.amount, p.type, p.category_id, uid⟩
      let s' : Store := { s with transactions := s.transactions ++ [tx] }
      (s', .ok (enrich s' tx))

/-- Endpoint PUT on a transaction id (`update_transaction`): pydantic validation,
ownership check on the transaction, the shared category check, then full
field replacement and the enriched row. -/
def updateTransaction (s : Store) (uid txId : Nat) (p : TxIn) :
    Store × Except AppError TxOut :=
  if ¬ txInValid p then (s, .error .validation)
  else
    match findTx s txId with
    | none => (s, .error (.http 404 "Transaction not found"))
    | some tx =>
      if tx.owner_id == uid then
        match categoryCheck s uid p.category_id with
        | .error e => (s, .error e)
        | .ok _ =>
          let tx' : Transaction :=
            { tx with
              date := p.date, description := p.description, amount := p.amount,
              type := p.type, category_id := p.category_id }
          let s' : Store :=
            { s with transactions := s.transactions.map (fun t =>
                if t.id == txId then tx' else t) }
          (s', .ok (enrich s' tx'))
      else (s, .error (.http 404 "Transaction not found"))

/-! ### Concrete stores used for witnesses and counterexamples -/

/-- A one-user store with one category and one categorized transaction. -/
def demoStore : Store :=
  ⟨[⟨1, "a@b.c", "h"⟩], [⟨1, "General", 1⟩], [⟨1, 5, "lunch", 3, "expense", some 1, 1⟩]⟩

/-- A one-user store with 51 same-owner transactions dated inside `[0, 100]`. -/
def pageStore : Store :=
  ⟨[⟨1, "a@b.c", "h"⟩], [],
    (List.range 51).map (fun i => ⟨i + 1, 10, "t", 1, "expense", none, 1⟩)⟩

/-- A one-user store with no categories and no transactions. -/
def bareStore : Store := ⟨[⟨1, "a@b.c", "h"⟩], [], []⟩

/-- A transaction payload that passes pydantic validation. -/
def goodTxIn : TxIn := ⟨7, "bus", 2, "expense", none⟩

/-- A transaction payload with `category_id = 0` (nonexistent category). -/
def zeroCatTxIn : TxIn := ⟨7, "bus", 2, "expense", some 0⟩

/-- A transaction payload with nonpositive amount and a garbage kind. -/
def badTxIn : TxIn := ⟨7, "bus", -1, "banana", none⟩

/-! ### Shared lemmas -/

lemma mem_le_maxNat {x : Nat} {l : List Nat} (h : x ∈ l) : x ≤ maxNat l := by
  induction l with
  | nil => cases h
  | cons a t ih =>
    rcases List.mem_cons.mp h with rfl | hm
    · exact Nat.le_max_left x (maxNat t)
    · exact Nat.le_trans (ih hm) (Nat.le_max_right a (maxNat t))

lemma txId_lt_nextTxId {s : Store} {t : Transaction} (h : t ∈ s.transactions) :
    t.id < nextTxId s :=
  Nat.lt_succ_of_le (mem_le_maxNat (List.mem_map_of_mem (·.id) h))

lemma userId_lt_nextUserId {s : Store} {u : User} (h : u ∈ s.users) :
    u.id < nextUserId s :=
  Nat.lt_succ_of_le (mem_le_maxNat (List.mem_map_of_mem (·.id) h))

/-- With `offset = 0` and a limit no smaller than the number of matching rows,
the listing is a permutation of the enriched filtered rows. -/
lemma listTransactions_offset0_perm (s : Store) (uid : Nat) (q ty : Option String)
    (cid : Option Nat) (start stop : Option Nat) (limit : Nat)
    (hlen : (s.transactions.filter (txKeep uid q ty cid start stop)).length ≤ limit) :
    List.Perm (listTransactions s uid q ty cid start stop limit 0)
      ((s.transactions.filter (txKeep uid q ty cid start stop)).map (enrich s)) := by
  unfold listTransactions
  rw [List.drop_zero, List.take_of_length_le (by
    rw [List.length_insertionSort]; exact hlen)]
  exact (List.perm_insertionSort txGE _).map (enrich s)

/-- The listing is always sorted by date descending (for any filters and any
pagination). -/
lemma listTransactions_sorted_desc (s : Store) (uid : Nat) (q ty : Option String)
    (cid : Option Nat) (start stop : Option Nat) (limit offset : Nat) :
    (listTransactions s uid q ty cid start stop limit offset).Pairwise
      (fun x y => y.date ≤ x.date) := by
  unfold listTransactions
  rw [List.pairwise_map]
  have hsub : List.Sublist
      ((((s.transactions.filter (txKeep uid q ty cid start stop)).insertionSort
        txGE).drop offset).take limit)
      ((s.transactions.filter (txKeep uid q ty cid start stop)).insertionSort txGE) :=
    (List.take_sublist _ _).trans (List.drop_sublist _ _)
  exact (List.sorted_insertionSort txGE _).sublist hsub

/-! ### Claims -/

/-- C1: a category update or delete by a principal who does not own a
category with the targeted id (whether the id is absent or owned by someone
else) fails with 404 "Category not found", never 401 and never silently; the
store is unchanged and the two cases produce literally identical results. -/
theorem c1_foreign_category_update_delete_notFound
    (s : Store) (uid cid : Nat) (name : String)
    (hname : categoryNameValid name = true)
    (hown : ∀ c ∈ s.categories, c.id = cid → c.owner_id ≠ uid) :
    updateCategory s uid cid name = (s, .error (.http 404 "Category not found")) ∧
    deleteCategory s uid cid = (s, .error (.http 404 "Category not found")) := by
  cases hfc : findCategory s cid with
  | none => constructor <;> simp [updateCategory, deleteCategory, hname, hfc]
  | some c =>
    have hfc' : s.categories.find? (fun x => x.id == cid) = some c := hfc
    have hmem : c ∈ s.categories := List.mem_of_find?_eq_some hfc'
    have hid : c.id = cid := by simpa using List.find?_some hfc'
    have hne : (c.owner_id == uid) = false := by
      simpa using hown c hmem hid
    constructor <;> simp [updateCategory, deleteCategory, hname, hfc, hne]

theorem c1_witness :
    updateCategory demoStore 2 1 "X" = (demoStore, .error (.http 404 "Category not found")) ∧
    deleteCategory demoStore 2 1 = (demoStore, .error (.http 404 "Category not found")) :=
  c1_foreign_category_update_delete_notFound demoStore 2 1 "X" (by decide) (by decide)

/-- C2 (code bug evaluation): with no category of id 0 in the store, a create
request carrying `category_id = 0` is not rejected: the truthiness guard
`if payload.category_id:` skips the ownership check and the transaction is
created with a dangling category reference 0; an update with the same payload
likewise succeeds. -/
theorem c2_category_zero_bypasses_check :
    findCategory bareStore 0 = none ∧
    (createTransaction bareStore 1 zeroCatTxIn).2 =
      .ok ⟨1, 7, "bus", 2, "expense", some 0, none⟩ ∧
    ((createTransaction bareStore 1 zeroCatTxIn).1.transactions.map (·.category_id)) =
      [some 0] ∧
    (updateTransaction (createTransaction bareStore 1 zeroCatTxIn).1 1 1 zeroCatTxIn).2 =
      .ok ⟨1, 7, "bus", 2, "expense", some 0, none⟩ := by decide

/-- C10: when `update_transaction` fails — validation failure, transaction
absent or foreign-owned, or bad category reference — the store is returned
unchanged; no field of any stored transaction is modified. -/
theorem c10_update_transaction_error_leaves_store
    (s : Store) (uid i : Nat) (p : TxIn) (e : AppError)
    (h : (updateTransaction s uid i p).2 = .error e) :
    (updateTransaction s uid i p).1 = s := by
  by_cases hv : txInValid p = true
  · cases hft : findTx s i with
    | none => simp [updateTransaction, hv, hft]
    | some tx =>
      by_cases hw : (tx.owner_id == uid) = true
      · cases hcc : categoryCheck s uid p.category_id with
        | error e' => simp [updateTransaction, hv, hft, hw, hcc]
        | ok uu => exfalso; simp [updateTransaction, hv, hft, hw, hcc] at h
      · simp [updateTransaction, hv, hft, hw]
  · simp [updateTransaction, hv]

theorem c10_witness : (updateTransaction demoStore 1 99 goodTxIn).1 = demoStore :=
  c10_update_transaction_error_leaves_store demoStore 1 99 goodTxIn
    (.http 404 "Transaction not found") (by decide)

/-- C3: a successful category delete removes the category row and rewrites
the transactions table by nulling the category reference of exactly the rows
that referenced it, leaving every other field intact; no transaction row is
removed. -/
theorem c3_delete_category_detaches_transactions
    (s s' : Store) (uid cid : Nat)
    (h : deleteCategory s uid cid = (s', .ok ())) :
    s'.transactions = s.transactions.map (fun t =>
      if t.category_id == some cid then { t with category_id := none } else t) ∧
    s'.transactions.length = s.transactions.length ∧
    s'.categories = s.categories.filter (fun x => x.id != cid) ∧
    s'.users = s.users := by
  unfold deleteCategory at h
  cases hfc : findCategory s cid with
  | none => rw [hfc] at h; simp at h
  | some c =>
    rw [hfc] at h
    by_cases hw : (c.owner_id == uid) = true
    · simp only [hw, if_true] at h
      have hs : s' = { s with
          categories := s.categories.filter (fun x => x.id != cid)
          transactions := s.transactions.map (fun t =>
            if t.category_id == some cid then { t with category_id := none } else t) } := by
        have := congrArg Prod.fst h
        simpa using this.symm
      subst hs
      refine ⟨rfl, ?_, rfl, rfl⟩
      simp [List.length_map]
    · simp only [hw, if_false] at h
      simp at h

theorem c3_witness :
    (Store.mk [⟨1, "a@b.c", "h"⟩] []
        [⟨1, 5, "lunch", 3, "expense", none, 1⟩]).transactions =
      demoStore.transactions.map (fun t =>
        if t.category_id == some 1 then { t with category_id := none } else t) ∧
    (Store.mk [⟨1, "a@b.c", "h"⟩] []
        [⟨1, 5, "lunch", 3, "expense", none, 1⟩]).transactions.length =
      demoStore.transactions.length ∧
    (Store.mk [⟨1, "a@b.c", "h"⟩] []
        [⟨1, 5, "lunch", 3, "expense", none, 1⟩]).categories =
      demoStore.categories.filter (fun x => x.id != 1) ∧
    (Store.mk [⟨1, "a@b.c", "h"⟩] []
        [⟨1, 5, "lunch", 3, "expense", none, 1⟩]).users = demoStore.users :=
  c3_delete_category_detaches_transactions demoStore
    (Store.mk [⟨1, "a@b.c", "h"⟩] [] [⟨1, 5, "lunch", 3, "expense", none, 1⟩])
    1 1 (by decide)

/-- C5: a transaction payload with nonpositive amount is rejected by pydantic
validation (422) for any kind value, with the store unchanged, both on create
and on update; conversely any accepted create or update had a strictly
positive amount and kind exactly "expense" or "income". -/
theorem c5_nonpositive_amount_rejected
    (s : Store) (uid i : Nat) (p : TxIn) :
    (p.amount ≤ 0 →
      createTransaction s uid p = (s, .error .validation) ∧
      updateTransaction s uid i p = (s, .error .validation)) ∧
    (∀ s' o, createTransaction s uid p = (s', .ok o) →
      0 < p.amount ∧ (p.type = "expense" ∨ p.type = "income")) ∧
    (∀ s' o, updateTransaction s uid i p = (s', .ok o) →
      0 < p.amount ∧ (p.type = "expense" ∨ p.type = "income")) := by
  refine ⟨?_, ?_, ?_⟩
  · intro hle
    have hv : txInValid p = false := by
      simp [txInValid, not_lt.mpr hle]
    constructor <;> simp [createTransaction, updateTransaction, hv]
  · intro s' o h
    by_cases hv : txInValid p = true
    · have := hv
      simp only [txInValid, Bool.and_eq_true, decide_eq_true_eq, Bool.or_eq_true,
        beq_iff_eq] at this
      exact ⟨this.1, this.2⟩
    · rw [Bool.not_eq_true] at hv
      simp [createTransaction, hv] at h
  · intro s' o h
    by_cases hv : txInValid p = true
    · have := hv
      simp only [txInValid, Bool.and_eq_true, decide_eq_true_eq, Bool.or_eq_true,
        beq_iff_eq] at this
      exact ⟨this.1, this.2⟩
    · rw [Bool.not_eq_true] at hv
      simp [updateTransaction, hv] at h

theorem c5_witness :
    createTransaction demoStore 1 badTxIn = (demoStore, .error .validation) ∧
    updateTransaction demoStore 1 1 badTxIn = (demoStore, .error .validation) :=
  (c5_nonpositive_amount_rejected demoStore 1 1 badTxIn).1 (by decide)

/-- C8 (counterexample): the bad-token case and the stale-user case both fail
with status 401, but with different response details ("Invalid token" vs
"User not found"), so the two cases are distinguishable by the caller —
refuting the indistinguishability part of the claim. -/
theorem c8_counterexample :
    getUserFromToken bareStore .invalid = .error (.http 401 "Invalid token") ∧
    getUserFromToken bareStore (.subject 99) = .error (.http 401 "User not found") ∧
    getUserFromToken bareStore .invalid ≠ getUserFromToken bareStore (.subject 99) := by
  decide

/-- C8 (amended): an undecodable/unverifiable/expired token fails with
401 "Invalid token"; a well-formed token whose subject does not resolve to an
existing user fails with 401 "User not found"; every failure of the
Authorization Core carries status 401 (`Unauthenticated`), but the two cases
differ in their detail string. -/
theorem c8_all_auth_failures_are_401
    (s : Store) (d : TokenResult) :
    (d = .invalid → getUserFromToken s d = .error (.http 401 "Invalid token")) ∧
    (∀ uid, d = .subject uid → findUser s uid = none →
      getUserFromToken s d = .error (.http 401 "User not found")) ∧
    (∀ e, getUserFromToken s d = .error e → e.statusOf = 401) := by
  refine ⟨?_, ?_, ?_⟩
  · rintro rfl; rfl
  · rintro uid rfl hfind
    simp [getUserFromToken, hfind]
  · intro e h
    cases d with
    | invalid =>
      simp [getUserFromToken] at h
      subst h; rfl
    | subject uid =>
      cases hf : findUser s uid with
      | none =>
        simp [getUserFromToken, hf] at h
        subst h; rfl
      | some u => simp [getUserFromToken, hf] at h

theorem c8_witness :
    getUserFromToken bareStore (.subject 2) = .error (.http 401 "User not found") ∧
    AppError.statusOf (.http 401 "User not found") = 401 :=
  ⟨(c8_all_auth_failures_are_401 bareStore (.subject 2)).2.1 2 rfl (by decide),
    (c8_all_auth_failures_are_401 bareStore (.subject 2)).2.2 _
      ((c8_all_auth_failures_are_401 bareStore (.subject 2)).2.1 2 rfl (by decide))⟩

/-- C4: a successful registration inserts exactly one user and exactly the
three categories "General", "Food", "Transport" owned by the new user, and
touches nothing else: the transactions table is unchanged, the previous
tables are preserved, and (in a store where every category is owned by an
existing user) the new user owns exactly those 3 categories afterwards. -/
theorem c4_register_seeds_three_default_categories
    (s s' : Store) (email pw : String) (u : User)
    (h : registerUser s email pw = (s', .ok u))
    (hinv : ∀ c ∈ s.categories, ∃ w ∈ s.users, c.owner_id = w.id) :
    s'.transactions = s.transactions ∧
    s'.users = s.users ++ [u] ∧
    s'.categories = s.categories ++
      [⟨nextCategoryId s, "General", u.id⟩, ⟨nextCategoryId s + 1, "Food", u.id⟩,
        ⟨nextCategoryId s + 2, "Transport", u.id⟩] ∧
    (s'.categories.filter (fun c => c.owner_id == u.id)).map (·.name) =
      ["General", "Food", "Transport"] := by
  unfold registerUser at h
  by_cases hdup : (s.users.any (fun w => w.email == email)) = true
  · simp only [hdup, if_true] at h
    simp at h
  · simp only [hdup, if_false] at h
    have hu : u = ⟨nextUserId s, email, pw⟩ := by
      have := congrArg Prod.snd h
      simpa using this.symm
    have hs : s' = { s with
        users := s.users ++ [⟨nextUserId s, email, pw⟩]
        categories := s.categories ++
          [⟨nextCategoryId s, "General", nextUserId s⟩,
            ⟨nextCategoryId s + 1, "Food", nextUserId s⟩,
            ⟨nextCategoryId s + 2, "Transport", nextUserId s⟩] } := by
      have := congrArg Prod.fst h
      simpa using this.symm
    subst hu
    subst hs
    refine ⟨rfl, rfl, rfl, ?_⟩
    rw [List.filter_append]
    have hold : s.categories.filter (fun c => c.owner_id == nextUserId s) = [] := by
      rw [List.filter_eq_nil_iff]
      intro c hc
      obtain ⟨w, hw, hcw⟩ := hinv c hc
      have hlt : w.id < nextUserId s := userId_lt_nextUserId hw
      have : c.owner_id ≠ nextUserId s := by omega
      simpa using this
    rw [hold]
    simp

theorem c4_witness :
    (registerUser bareStore "x@y.z" "h2").1.transactions = bareStore.transactions ∧
    (registerUser bareStore "x@y.z" "h2").1.users = bareStore.users ++ [⟨2, "x@y.z", "h2"⟩] ∧
    (registerUser bareStore "x@y.z" "h2").1.categories = bareStore.categories ++
      [⟨nextCategoryId bareStore, "General", 2⟩, ⟨nextCategoryId bareStore + 1, "Food", 2⟩,
        ⟨nextCategoryId bareStore + 2, "Transport", 2⟩] ∧
    ((registerUser bareStore "x@y.z" "h2").1.categories.filter
      (fun c => c.owner_id == 2)).map (·.name) = ["General", "Food", "Transport"] :=
  c4_register_seeds_three_default_categories bareStore
    (registerUser bareStore "x@y.z" "h2").1 "x@y.z" "h2" ⟨2, "x@y.z", "h2"⟩
    (by decide) (by decide)

/-- C6 (counterexample): with the request's default pagination (limit 50,
offset 0), a principal owning 51 transactions dated inside the inclusive
range is returned only 50 of them: some in-range transaction of the principal
is missing from the result, so the result does not contain exactly the
matching transactions. -/
theorem c6_counterexample :
    ∃ t ∈ pageStore.transactions, t.owner_id = 1 ∧ 0 ≤ t.date ∧ t.date ≤ 100 ∧
      ∀ o ∈ listTransactions pageStore 1 none none none (some 0) (some 100) 50 0,
        o.id ≠ t.id := by decide

/-- C6 (amended): a listing with date filters `start = a`, `end = b` and
offset 0, whenever the matching rows fit within the limit, returns exactly
the principal's transactions with `a ≤ date ≤ b` — the range is inclusive at
both endpoints — and the result is ordered by date descending (the ordering
holds for every limit and offset). -/
theorem c6_date_range_inclusive_sorted_desc
    (s : Store) (uid a b limit : Nat)
    (hlen : (s.transactions.filter (fun t => t.owner_id == uid &&
      (decide (a ≤ t.date) && decide (t.date ≤ b)))).length ≤ limit) :
    List.Perm (listTransactions s uid none none none (some a) (some b) limit 0)
      ((s.transactions.filter (fun t => t.owner_id == uid &&
        (decide (a ≤ t.date) && decide (t.date ≤ b)))).map (enrich s)) ∧
    (listTransactions s uid none none none (some a) (some b) limit 0).Pairwise
      (fun x y => y.date ≤ x.date) := by
  have hpred : txKeep uid none none none (some a) (some b) = fun t =>
      t.owner_id == uid && (decide (a ≤ t.date) && decide (t.date ≤ b)) := by
    funext t
    simp [txKeep, strTruthy, typeFilterActive, natTruthy, Bool.and_assoc]
  constructor
  · have := listTransactions_offset0_perm s uid none none none (some a) (some b) limit
      (by rw [hpred]; exact hlen)
    rwa [hpred] at this
  · exact listTransactions_sorted_desc s uid none none none (some a) (some b) limit 0

theorem c6_witness :
    List.Perm (listTransactions demoStore 1 none none none (some 0) (some 100) 50 0)
      ((demoStore.transactions.filter (fun t => t.owner_id == 1 &&
        (decide (0 ≤ t.date) && decide (t.date ≤ 100)))).map (enrich demoStore)) ∧
    (listTransactions demoStore 1 none none none (some 0) (some 100) 50 0).Pairwise
      (fun x y => y.date ≤ x.date) :=
  c6_date_range_inclusive_sorted_desc demoStore 1 0 100 50 (by decide)

/-- C7 (counterexample): a provided category filter value of 0 is skipped by
the truthiness guard `if category_id:` and a provided kind filter value
outside {"expense", "income"} is skipped by the membership guard, so in both
cases the listing returns transactions whose category reference (resp. kind)
differs from the provided filter value. -/
theorem c7_counterexample :
    (∃ o ∈ listTransactions demoStore 1 none none (some 0) none none 50 0,
      o.category_id ≠ some 0) ∧
    (∃ o ∈ listTransactions demoStore 1 none (some "banana") none none none 50 0,
      o.type ≠ "banana") := by decide

/-- C7 (amended): a provided nonzero category filter value selects exactly
the principal's transactions whose category reference equals it, and a
provided kind filter value that is "expense" or "income" selects exactly the
principal's transactions of that kind (each with offset 0 and the matching
rows within the limit); a category filter of 0 and kind filter values other
than "expense"/"income" are ignored. -/
theorem c7_category_and_kind_equality_filters
    (s : Store) (uid cid limit : Nat) (ty : String)
    (hcid : cid ≠ 0) (hty : ty = "expense" ∨ ty = "income")
    (hlen1 : (s.transactions.filter (fun t =>
      t.owner_id == uid && t.category_id == some cid)).length ≤ limit)
    (hlen2 : (s.transactions.filter (fun t =>
      t.owner_id == uid && t.type == ty)).length ≤ limit) :
    List.Perm (listTransactions s uid none none (some cid) none none limit 0)
      ((s.transactions.filter (fun t =>
        t.owner_id == uid && t.category_id == some cid)).map (enrich s)) ∧
    List.Perm (listTransactions s uid none (some ty) none none none limit 0)
      ((s.transactions.filter (fun t =>
        t.owner_id == uid && t.type == ty)).map (enrich s)) := by
  have hpred1 : txKeep uid none none (some cid) none none = fun t =>
      t.owner_id == uid && t.category_id == some cid := by
    funext t
    simp [txKeep, strTruthy, typeFilterActive, natTruthy, hcid]
  have hpred2 : txKeep uid none (some ty) none none none = fun t =>
      t.owner_id == uid && t.type == ty := by
    funext t
    rcases hty with rfl | rfl <;>
      simp [txKeep, strTruthy, typeFilterActive, natTruthy]
  constructor
  · have := listTransactions_offset0_perm s uid none none (some cid) none none limit
      (by rw [hpred1]; exact hlen1)
    rwa [hpred1] at this
  · have := listTransactions_offset0_perm s uid none (some ty) none none none limit
      (by rw [hpred2]; exact hlen2)
    rwa [hpred2] at this

theorem c7_witness :
    List.Perm (listTransactions demoStore 1 none none (some 1) none none 50 0)
      ((demoStore.transactions.filter (fun t =>
        t.owner_id == 1 && t.category_id == some 1)).map (enrich demoStore)) ∧
    List.Perm (listTransactions demoStore 1 none (some "income") none none none 50 0)
      ((demoStore.transactions.filter (fun t =>
        t.owner_id == 1 && t.type == "income")).map (enrich demoStore)) :=
  c7_category_and_kind_equality_filters demoStore 1 1 50 "income" (by decide)
    (Or.inr rfl) (by decide) (by decide)

/-- Appending a fresh transaction owned by `uid` and then listing with no
filters and a sufficient limit lets the row be read back by id: filtering the
listing on that id yields exactly its enriched form. -/
lemma read_back (s s2 : Store) (uid : Nat) (tx : Transaction)
    (hs2 : s2 = { s with transactions := s.transactions ++ [tx] })
    (howner : tx.owner_id = uid)
    (hfresh : ∀ t ∈ s.transactions, t.id ≠ tx.id) :
    (listTransactions s2 uid none none none none none s2.transactions.length 0).filter
      (fun x => x.id == tx.id) = [enrich s2 tx] := by
  subst hs2
  have hpredAll : txKeep uid none none none none none =
      fun t : Transaction => t.owner_id == uid := by
    funext t; simp [txKeep, strTruthy, typeFilterActive, natTruthy]
  have hlen : ((s.transactions ++ [tx]).filter
      (txKeep uid none none none none none)).length ≤ (s.transactions ++ [tx]).length :=
    List.length_filter_le _ _
  have hperm := listTransactions_offset0_perm
    { s with transactions := s.transactions ++ [tx] } uid none none none none none
    (s.transactions ++ [tx]).length hlen
  have hfil := hperm.filter (fun x => x.id == tx.id)
  have hrhs : (((s.transactions ++ [tx]).filter
      (txKeep uid none none none none none)).map
        (enrich { s with transactions := s.transactions ++ [tx] })).filter
      (fun x => x.id == tx.id) =
      [enrich { s with transactions := s.transactions ++ [tx] } tx] := by
    rw [hpredAll, List.filter_append, List.map_append, List.filter_append]
    have htx : [tx].filter (fun t : Transaction => t.owner_id == uid) = [tx] := by
      simp [howner]
    rw [htx]
    have ha : ((s.transactions.filter (fun t : Transaction => t.owner_id == uid)).map
        (enrich { s with transactions := s.transactions ++ [tx] })).filter
        (fun x => x.id == tx.id) = [] := by
      rw [List.filter_eq_nil_iff]
      intro x hx
      obtain ⟨t, ht, rfl⟩ := List.mem_map.mp hx
      have ht' : t ∈ s.transactions := List.mem_of_mem_filter ht
      simpa [enrich] using hfresh t ht'
    rw [ha]
    simp [enrich]
  rw [hrhs] at hfil
  exact List.perm_singleton.mp hfil

/-- C9: a successful transaction create, immediately read back by its id from
the (unfiltered, unpaginated) listing, yields exactly the response returned
by the create: every field including the resolved category name is identical. -/
theorem c9_create_then_read_roundtrip
    (s s' : Store) (uid : Nat) (p : TxIn) (o : TxOut)
    (h : createTransaction s uid p = (s', .ok o)) :
    (listTransactions s' uid none none none none none s'.transactions.length 0).filter
      (fun x => x.id == o.id) = [o] := by
  unfold createTransaction at h
  by_cases hv : txInValid p = true
  · rw [if_neg (by simp [hv])] at h
    cases hcc : categoryCheck s uid p.category_id with
    | error e => rw [hcc] at h; simp at h
    | ok u' =>
      rw [hcc] at h
      simp only [Prod.mk.injEq, Except.ok.injEq] at h
      obtain ⟨hs, ho⟩ := h
      subst hs
      subst ho
      exact read_back s _ uid
        ⟨nextTxId s, p.date, p.description, p.amount, p.type, p.category_id, uid⟩
        rfl rfl (fun t ht => Nat.ne_of_lt (txId_lt_nextTxId ht))
  · rw [if_pos (by simp [hv])] at h
    simp at h

theorem c9_witness :
    (listTransactions (createTransaction demoStore 1 goodTxIn).1 1 none none none
      none none (createTransaction demoStore 1 goodTxIn).1.transactions.length 0).filter
      (fun x => x.id == (2 : Nat)) = [⟨2, 7, "bus", 2, "expense", none, none⟩] :=
  c9_create_then_read_roundtrip demoStore (createTransaction demoStore 1 goodTxIn).1 1
    goodTxIn ⟨2, 7, "bus", 2, "expense", none, none⟩ (by decide)
